import Mathlib

/-!
Formal model of `sensitivity_analysis.py` (repository `docplex_experiments`).

The script builds a small linear program (telephone production planning):
variables `desk`, `cell` (continuous, lower bound 0), constraints
`machine_1 : 2*desk + 1*cell <= 8`, `machine_2 : 1*desk + 2*cell <= 8`,
`factory : 3*desk + 3*cell <= 24`, objective `maximize 300*desk + 200*cell`.
It then solves, reads sensitivity data (dual values, slacks, reduced costs,
RHS/objective ranging), mutates the model (adds an `overtime` variable with
`0 <= overtime <= 4`, rewrites `machine_1`'s right-hand side to
`8 + overtime`, replaces the objective twice), re-solves, and finally builds
a linear relaxation via `LinearRelaxer.make_relaxed_model`.

The docplex library itself (the `Model` class, the solve engine, the
`LinearRelaxer`) is not part of the repository; only the calling script is.
Definitions below that embed library behaviour are therefore modelled from
the specification (its data model in section 3, the solver-adapter contract
in section 4.2, the relaxation transformer in section 4.4 and the
`Unsolved -> Solved -> Unsolved` state machine in section 4.5); each such
definition carries a doc comment starting with `Modelled from the spec:`.
The linear program itself — its coefficients, bounds and the sequence of
mutations — is translated directly from the script.

Layout: all definitions first, then all theorems.
-/

namespace SensitivityAnalysis

/-- Modelled from the spec: domain of a decision variable, continuous or
integer (spec section 3, "Variable"). -/
inductive VarDomain where
  | continuous
  | integer
deriving DecidableEq, Repr

/-- Modelled from the spec: a decision variable has an identifier, a domain
and lower/upper bounds (`none` upper bound means unbounded above), spec
section 3. -/
structure Variable where
  name : String
  domain : VarDomain
  lb : ℚ
  ub : Option ℚ
deriving DecidableEq, Repr

/-- Modelled from the spec: a linear expression is a constant plus a list of
(variable identifier, coefficient) terms (spec section 3: "linear expression
(mapping from Variable to coefficient)"). -/
structure LinExpr where
  const : ℚ
  coeffs : List (String × ℚ)
deriving DecidableEq, Repr

/-- Value of a linear expression under an assignment of rationals to
variable identifiers. -/
def LinExpr.eval (e : LinExpr) (a : String → ℚ) : ℚ :=
  e.const + (e.coeffs.map fun p => p.2 * a p.1).sum

/-- Coefficient of a given variable identifier in a linear expression. -/
def LinExpr.coeff (e : LinExpr) (n : String) : ℚ :=
  ((e.coeffs.filter fun p => p.1 == n).map Prod.snd).sum

/-- Modelled from the spec: relational operator of a constraint (the script
only uses `<=`, the spec's data model allows a general relation). -/
inductive Relation where
  | le
  | ge
  | eq
deriving DecidableEq, Repr

/-- Truth of a relation between a left-hand side and a right-hand side
value. -/
def Relation.holds : Relation → ℚ → ℚ → Prop
  | .le, x, y => x ≤ y
  | .ge, x, y => y ≤ x
  | .eq, x, y => x = y

/-- Modelled from the spec: a constraint has an (optional) identifier, a
linear expression, a relational operator and a right-hand side which is
itself possibly a linear expression for a parametrized RHS (spec section 3),
as happens at line 54 of the script. -/
structure Constraint where
  name : Option String
  expr : LinExpr
  rel : Relation
  rhs : LinExpr
deriving DecidableEq, Repr

/-- Modelled from the spec: optimization direction of the objective. -/
inductive Direction where
  | maximize
  | minimize
deriving DecidableEq, Repr

/-- Modelled from the spec: objective is a linear expression plus a
direction (spec section 3). -/
structure Objective where
  expr : LinExpr
  dir : Direction
deriving DecidableEq, Repr

/-- Modelled from the spec: a model owns an ordered list of variables and
constraints and one objective (spec section 3). -/
structure Model where
  name : String
  vars : List Variable
  cts : List Constraint
  obj : Objective
deriving DecidableEq, Repr

/-- Membership of a rational value in a variable domain: any rational is in
the continuous domain, only integers in the integer domain. -/
def VarDomain.mem : VarDomain → ℚ → Prop
  | .continuous, _ => True
  | .integer, q => ∃ z : ℤ, q = (z : ℚ)

/-- A value respects a variable's bounds. -/
def Variable.inBounds (v : Variable) (q : ℚ) : Prop :=
  v.lb ≤ q ∧ match v.ub with
    | none => True
    | some u => q ≤ u

/-- Feasibility of an assignment for a model: every variable is within its
bounds and domain, and every constraint holds. -/
def Model.Feasible (m : Model) (a : String → ℚ) : Prop :=
  (∀ v ∈ m.vars, v.inBounds (a v.name) ∧ v.domain.mem (a v.name)) ∧
  (∀ ct ∈ m.cts, ct.rel.holds (ct.expr.eval a) (ct.rhs.eval a))

/-- Objective value of an assignment. -/
def Model.objValue (m : Model) (a : String → ℚ) : ℚ :=
  m.obj.expr.eval a

/-- Comparison of two objective values in the model's optimization
direction: `d.improvesTo x z` says `z` is at least as good as `x`. -/
def Direction.improvesTo : Direction → ℚ → ℚ → Prop
  | .maximize, x, z => x ≤ z
  | .minimize, x, z => z ≤ x

/-- A rational `z` is an optimal objective value of a model: some feasible
assignment attains it and no feasible assignment beats it. -/
def Model.IsOptimalValue (m : Model) (z : ℚ) : Prop :=
  ∃ a, m.Feasible a ∧ m.objValue a = z ∧
    ∀ b, m.Feasible b → m.obj.dir.improvesTo (m.objValue b) z

/-- Slack of a constraint at an assignment: right-hand side minus left-hand
side (spec glossary: "difference between a constraint's RHS and the value of
its linear expression"). -/
def Constraint.slackAt (ct : Constraint) (a : String → ℚ) : ℚ :=
  ct.rhs.eval a - ct.expr.eval a

/-- A constraint is binding (tight) at an assignment when its expression
equals its right-hand side there. -/
def Constraint.bindingAt (ct : Constraint) (a : String → ℚ) : Prop :=
  ct.expr.eval a = ct.rhs.eval a

/-- Lookup of a constraint by name, as used at line 84 of the script
(`rmdl.get_constraint_by_name('machine_1')`). Returns the first constraint
carrying the given name, `none` when there is none. -/
def Model.get_constraint_by_name (m : Model) (n : String) : Option Constraint :=
  m.cts.find? fun ct => ct.name == some n

/-- Whether a model still contains an integer-domain variable. -/
def Model.hasIntegerVar (m : Model) : Bool :=
  m.vars.any fun v => v.domain == VarDomain.integer

/-- Variable `desk` of line 12 of the script: continuous, lower bound 0. -/
def desk : Variable := ⟨"desk", .continuous, 0, none⟩

/-- Variable `cell` of line 13 of the script: continuous, lower bound 0. -/
def cell : Variable := ⟨"cell", .continuous, 0, none⟩

/-- Constraint `machine_1` of line 18: `2*desk + 1*cell <= 8`. -/
def ct_machine_1 : Constraint :=
  ⟨some "machine_1", ⟨0, [("desk", 2), ("cell", 1)]⟩, .le, ⟨8, []⟩⟩

/-- Constraint `machine_2` of line 19: `1*desk + 2*cell <= 8`. -/
def ct_machine_2 : Constraint :=
  ⟨some "machine_2", ⟨0, [("desk", 1), ("cell", 2)]⟩, .le, ⟨8, []⟩⟩

/-- Constraint `factory` of line 20: `3*desk + 3*cell <= 24`. -/
def ct_factory : Constraint :=
  ⟨some "factory", ⟨0, [("desk", 3), ("cell", 3)]⟩, .le, ⟨24, []⟩⟩

/-- The model `mdl` as built by lines 7-23 of the script: variables `desk`
and `cell`, the three machine/factory constraints, and objective
`maximize 300*desk + 200*cell`. -/
def mdl : Model :=
  ⟨"telephone_production", [desk, cell], [ct_machine_1, ct_machine_2, ct_factory],
    ⟨⟨0, [("desk", 300), ("cell", 200)]⟩, .maximize⟩⟩

/-- The assignment `desk = 0, cell = 8` claimed optimal by the spec. -/
def assign08 : String → ℚ :=
  fun n => if n = "desk" then 0 else if n = "cell" then 8 else 0

/-- The true optimal assignment of the script's first model:
`desk = 8/3, cell = 8/3`. -/
def assignOpt : String → ℚ :=
  fun n => if n = "desk" then 8/3 else if n = "cell" then 8/3 else 0

namespace LinearRelaxer

/-- Modelled from the spec: docplex's `LinearRelaxer.make_relaxed_model`
(line 80 of the script) is not part of the repository. Per spec section 4.4
it produces a new model with identical variables (by identifier and bounds)
except that every integer-domain variable's domain is rewritten to
continuous, with every constraint and the objective copied unchanged. -/
def make_relaxed_model (m : Model) : Model :=
  { m with vars := m.vars.map fun v => { v with domain := VarDomain.continuous } }

end LinearRelaxer

/-- Modelled from the spec: basis status of a constraint or variable in the
optimal simplex basis (spec section 3 and glossary). -/
inductive BasisStatus where
  | basic
  | atLowerBound
  | atUpperBound
deriving DecidableEq, Repr

/-- Modelled from the spec: a Solution is an immutable snapshot produced by
a solve — variable values, objective value, and per-constraint basis
status, dual value and slack, per-variable reduced cost, plus the ranging
data the engine can serve as a secondary query (spec sections 3 and 4.2).
All per-item data is keyed by identifier. -/
structure Solution where
  values : List (String × ℚ)
  objective_value : ℚ
  duals : List (String × ℚ)
  slacks : List (String × ℚ)
  basis : List (String × BasisStatus)
  reduced_costs : List (String × ℚ)
  rhs_ranging_data : List (String × ℚ × ℚ)
  objective_ranging_data : List (String × ℚ × ℚ)
deriving DecidableEq, Repr

/-- Modelled from the spec: solve state of a Model instance — `unsolved`
(never solved, or mutated since the last solve) or `solved` with the
Solution of the last solve (spec section 4.5 state machine). -/
inductive SolveState where
  | unsolved
  | solved (sol : Solution)
deriving DecidableEq, Repr

/-- Modelled from the spec: error taxonomy of section 7. -/
inductive SensError where
  | InvalidBounds
  | Infeasible
  | Unbounded
  | UnsupportedForIntegerModel
  | NoSolutionAvailable
deriving DecidableEq, Repr

/-- Modelled from the spec: a Model instance together with its solve state,
the subject of the `Unsolved -> Solved(Solution) -> Unsolved` state machine
of spec section 4.5. -/
structure Session where
  model : Model
  state : SolveState
deriving DecidableEq, Repr

/-- Modelled from the spec: adding a variable mutates the model, so the last
Solution becomes stale and the state returns to `unsolved` (spec section
4.5). Mirrors line 53 of the script. -/
def Session.add_variable (s : Session) (v : Variable) : Session :=
  ⟨{ s.model with vars := s.model.vars ++ [v] }, .unsolved⟩

/-- Modelled from the spec: rewriting a constraint's right-hand side (line
54 of the script) mutates the model and invalidates the last Solution. -/
def Session.set_constraint_rhs (s : Session) (n : String) (r : LinExpr) : Session :=
  ⟨{ s.model with
      cts := s.model.cts.map fun ct =>
        if ct.name = some n then { ct with rhs := r } else ct },
    .unsolved⟩

/-- Modelled from the spec: replacing the objective (lines 55, 64, 66 of the
script) mutates the model and invalidates the last Solution. -/
def Session.set_objective (s : Session) (o : Objective) : Session :=
  ⟨{ s.model with obj := o }, .unsolved⟩

/-- Modelled from the spec: solving hands the model to the external engine;
on success the state becomes `solved` with the engine's Solution, on
failure (infeasible/unbounded) it stays `unsolved` (spec sections 4.2 and
4.5). -/
def Session.solve (s : Session) (engine : Model → Option Solution) : Session :=
  match engine s.model with
  | some sol => ⟨s.model, .solved sol⟩
  | none => ⟨s.model, .unsolved⟩

/-- Association-list lookup by identifier, shared by all sensitivity
readers. -/
def lookupValue (l : List (String × ℚ)) (n : String) : Option ℚ :=
  (l.find? fun p => p.1 == n).map Prod.snd

/-- Modelled from the spec: reading a constraint's dual value (lines 36-38,
84 of the script) requires a current Solution; in the `unsolved` state it
fails with `NoSolutionAvailable` (spec sections 4.5 and 7). -/
def Session.dual_value (s : Session) (ctname : String) : Except SensError (Option ℚ) :=
  match s.state with
  | .unsolved => .error .NoSolutionAvailable
  | .solved sol => .ok (lookupValue sol.duals ctname)

/-- Modelled from the spec: reading a constraint's slack value (lines 41-43
of the script); fails with `NoSolutionAvailable` in the `unsolved` state. -/
def Session.slack_value (s : Session) (ctname : String) : Except SensError (Option ℚ) :=
  match s.state with
  | .unsolved => .error .NoSolutionAvailable
  | .solved sol => .ok (lookupValue sol.slacks ctname)

/-- Modelled from the spec: reading a variable's reduced cost (lines 74-75
of the script); fails with `NoSolutionAvailable` in the `unsolved` state. -/
def Session.reduced_cost (s : Session) (varname : String) : Except SensError (Option ℚ) :=
  match s.state with
  | .unsolved => .error .NoSolutionAvailable
  | .solved sol => .ok (lookupValue sol.reduced_costs varname)

/-- Modelled from the spec: the engine-level ranging query (spec section
4.2) — ranging data is a secondary query against a solved model's Solution,
and requesting it on a model containing integer variables fails with
`UnsupportedForIntegerModel`; callers must relax first. Returns the pair
(RHS ranging, objective ranging). -/
def rangingQuery (m : Model) (sol : Solution) :
    Except SensError (List (String × ℚ × ℚ) × List (String × ℚ × ℚ)) :=
  if m.hasIntegerVar then .error .UnsupportedForIntegerModel
  else .ok (sol.rhs_ranging_data, sol.objective_ranging_data)

/-- Modelled from the spec: RHS ranging through the state machine (line 47
of the script, `cpx.solution.sensitivity.rhs()`): without a current
Solution there is nothing to query and the read fails with
`NoSolutionAvailable`; with one, the engine-level query runs and rejects
integer models. -/
def Session.rhs_ranging (s : Session) :
    Except SensError (List (String × ℚ × ℚ)) :=
  match s.state with
  | .unsolved => .error .NoSolutionAvailable
  | .solved sol => (rangingQuery s.model sol).map Prod.fst

/-- Modelled from the spec: objective-coefficient ranging through the state
machine (lines 61-62 of the script, `cpx.solution.sensitivity.objective()`). -/
def Session.objective_ranging (s : Session) :
    Except SensError (List (String × ℚ × ℚ)) :=
  match s.state with
  | .unsolved => .error .NoSolutionAvailable
  | .solved sol => (rangingQuery s.model sol).map Prod.snd

/-- An integer-model variant used to exercise the ranging rejection: the
`desk` variable declared with an integer domain (the script's comments at
lines 10-11 call `desk` and `cell` integer even though the code declares
them continuous — this is the integer variant the spec's relax-first rule
is about). -/
def intMdl : Model :=
  { mdl with vars := [⟨"desk", VarDomain.integer, 0, none⟩, cell] }

/-- A concrete Solution record used to instantiate the state machine
theorems. -/
def trivialSol : Solution :=
  ⟨[("desk", 0), ("cell", 0)], 0, [], [], [], [], [], []⟩

/-- Modelled from the spec: the Solution the engine returns for the first
solve (line 29 of the script). The optimum of the LP is at
`desk = cell = 8/3` with objective value `4000/3`; the duals are
`400/3, 100/3, 0` (the code comment at line 51, "maximum price 133.333",
is the dual `400/3` of `machine_1`), the slacks `0, 0, 8`, both binding
`<=`-constraints have their slack at its lower bound, and both variables
are basic with reduced cost 0. These numbers are certified optimal by the
duality theorems below, not taken on trust. -/
def sol0 : Solution :=
  ⟨[("desk", 8/3), ("cell", 8/3)], 4000/3,
   [("machine_1", 400/3), ("machine_2", 100/3), ("factory", 0)],
   [("machine_1", 0), ("machine_2", 0), ("factory", 8)],
   [("machine_1", .atLowerBound), ("machine_2", .atLowerBound), ("factory", .basic)],
   [("desk", 0), ("cell", 0)],
   [], []⟩

/-- Modelled from the spec: value of a linear expression under a Solution
(docplex's `expr.solution_value`, used at line 54 of the script on the
right-hand side of `machine_1`). Identifiers missing from the Solution's
value map evaluate to 0. -/
def LinExpr.solution_value (e : LinExpr) (sol : Solution) : ℚ :=
  e.eval fun n => (lookupValue sol.values n).getD 0

/-- The shadow price of `machine_1` as the script reads it at line 36: the
dual value recorded for `machine_1` in the first solve's Solution. -/
def machine1_shadow_price : ℚ :=
  (lookupValue sol0.duals "machine_1").getD 0

/-- Variable `overtime` of line 53 of the script: continuous, default lower
bound 0, upper bound 4. -/
def overtime : Variable := ⟨"overtime", .continuous, 0, some 4⟩

/-- The session after the first solve (line 29), holding the engine's
Solution for `mdl`. -/
def session0 : Session := ⟨mdl, .solved sol0⟩

/-- The session after lines 53-54 of the script: `overtime` added, and
`machine_1`'s right-hand side rewritten to
`ct_machine_1.rhs.solution_value + overtime` (the old constant RHS
evaluates to 8, so the new RHS is `8 + overtime`). -/
def session54 : Session :=
  (session0.add_variable overtime).set_constraint_rhs "machine_1"
    ⟨ct_machine_1.rhs.solution_value sol0, [("overtime", 1)]⟩

/-- The session after line 55: objective replaced by
`300*desk + 200*cell - 100*overtime`. -/
def session55 : Session :=
  session54.set_objective
    ⟨⟨0, [("desk", 300), ("cell", 200), ("overtime", -100)]⟩, .maximize⟩

/-- The model solved at line 56 (`s1`). -/
def mdl_overtime : Model := session55.model

/-- The model solved at line 65 (`s2`): objective replaced at line 64 by
`300*desk + 600*cell`. -/
def mdl_obj600 : Model :=
  (session55.set_objective ⟨⟨0, [("desk", 300), ("cell", 600)]⟩, .maximize⟩).model

/-- The model solved at line 67 (`s3`): objective replaced at line 66 by
`300*desk + 700*cell`. -/
def mdl_obj700 : Model :=
  (session55.set_objective ⟨⟨0, [("desk", 300), ("cell", 700)]⟩, .maximize⟩).model

/-- The relaxed model built at line 80 of the script,
`rmdl = LinearRelaxer.make_relaxed_model(mdl)`, where `mdl` has by then
been mutated through lines 53-66. -/
def rmdl : Model := LinearRelaxer.make_relaxed_model mdl_obj700

/-- A point of the enlarged feasible region reached through overtime:
`desk = 5, cell = 0, overtime = 2` (machine_1 usage `10 <= 8 + 2`). -/
def enlargedPoint : String → ℚ :=
  fun n => if n = "desk" then 5 else if n = "overtime" then 2 else 0

/-- A linear program in inequality standard form, `maximize c.x subject to
A.x <= b, x >= 0`, over the rationals: the abstract form of the continuous
LPs the script solves (spec section 2, "constructing a linear program,
solving it, and deriving sensitivity information"). -/
structure LPData (p q : ℕ) where
  A : Fin p → Fin q → ℚ
  b : Fin p → ℚ
  c : Fin q → ℚ

/-- Value of constraint row `i` at a point. -/
def LPData.rowValue {p q : ℕ} (P : LPData p q) (x : Fin q → ℚ) (i : Fin p) : ℚ :=
  ∑ j, P.A i j * x j

/-- Primal feasibility: nonnegative point satisfying every row. -/
def LPData.PrimalFeasible {p q : ℕ} (P : LPData p q) (x : Fin q → ℚ) : Prop :=
  (∀ j, 0 ≤ x j) ∧ ∀ i, P.rowValue x i ≤ P.b i

/-- Dual feasibility: nonnegative multipliers dominating the objective
coefficients columnwise. -/
def LPData.DualFeasible {p q : ℕ} (P : LPData p q) (y : Fin p → ℚ) : Prop :=
  (∀ i, 0 ≤ y i) ∧ ∀ j, P.c j ≤ ∑ i, y i * P.A i j

/-- Primal objective value. -/
def LPData.objective {p q : ℕ} (P : LPData p q) (x : Fin q → ℚ) : ℚ :=
  ∑ j, P.c j * x j

/-- Dual objective value. -/
def LPData.dualObjective {p q : ℕ} (P : LPData p q) (y : Fin p → ℚ) : ℚ :=
  ∑ i, P.b i * y i

/-- Slack of row `i` at a point. -/
def LPData.slack {p q : ℕ} (P : LPData p q) (x : Fin q → ℚ) (i : Fin p) : ℚ :=
  P.b i - P.rowValue x i

/-- Row `i` is binding (tight) at a point. -/
def LPData.binding {p q : ℕ} (P : LPData p q) (x : Fin q → ℚ) (i : Fin p) : Prop :=
  P.rowValue x i = P.b i

/-- A point is optimal: feasible and at least as good as every feasible
point. -/
def LPData.IsOptimal {p q : ℕ} (P : LPData p q) (x : Fin q → ℚ) : Prop :=
  P.PrimalFeasible x ∧ ∀ z, P.PrimalFeasible z → P.objective z ≤ P.objective x

/-- A rational is the optimal value: attained by some optimal point. -/
def LPData.IsOptimalValue {p q : ℕ} (P : LPData p q) (v : ℚ) : Prop :=
  ∃ x, P.IsOptimal x ∧ P.objective x = v

/-- The LP of lines 12-23 of the script in standard form: rows `machine_1`,
`machine_2`, `factory` in declaration order, columns `desk`, `cell`. -/
def exampleLP : LPData 3 2 :=
  ⟨![![2, 1], ![1, 2], ![3, 3]], ![8, 8, 24], ![300, 200]⟩

/-- The optimal point of the example LP, `desk = 8/3, cell = 8/3`. -/
def xstar : Fin 2 → ℚ := ![8/3, 8/3]

/-- The optimal dual multipliers of the example LP, in constraint order:
`400/3` for `machine_1`, `100/3` for `machine_2`, `0` for `factory`. -/
def ystar : Fin 3 → ℚ := ![400/3, 100/3, 0]

/-- The overtime scenario of lines 53-54 as a parametrized LP family:
`machine_1`'s right-hand side becomes `8 + t` where `t` is the achieved
value of the bounded auxiliary variable `overtime` (`0 <= t <= 4`); the
other rows and the objective are unchanged. -/
def overtimeLP (t : ℚ) : LPData 3 2 :=
  { exampleLP with b := ![8 + t, 8, 24] }

/-- The optimal point of the overtime LP family at achieved overtime `t`:
`desk = (8+2t)/3, cell = (8-t)/3`. -/
def xovt (t : ℚ) : Fin 2 → ℚ := ![(8 + 2*t)/3, (8 - t)/3]

end SensitivityAnalysis

namespace SensitivityAnalysis

theorem mdl_feasible_elim {a : String → ℚ} (h : mdl.Feasible a) :
    0 ≤ a "desk" ∧ 0 ≤ a "cell" ∧
    2 * a "desk" + a "cell" ≤ 8 ∧ a "desk" + 2 * a "cell" ≤ 8 ∧
    3 * a "desk" + 3 * a "cell" ≤ 24 := by
  obtain ⟨hv, hc⟩ := h
  have hd := hv desk (by simp [mdl])
  have hce := hv cell (by simp [mdl])
  have h1 := hc ct_machine_1 (by simp [mdl])
  have h2 := hc ct_machine_2 (by simp [mdl])
  have h3 := hc ct_factory (by simp [mdl])
  simp [desk, cell, Variable.inBounds, ct_machine_1, ct_machine_2, ct_factory,
    Relation.holds, LinExpr.eval] at hd hce h1 h2 h3
  refine ⟨hd.1, hce.1, by linarith, by linarith, by linarith⟩

theorem mdl_objValue_le {a : String → ℚ} (h : mdl.Feasible a) :
    mdl.objValue a ≤ 4000 / 3 := by
  obtain ⟨hd, hce, h1, h2, h3⟩ := mdl_feasible_elim h
  simp [mdl, Model.objValue, LinExpr.eval]
  linarith

theorem mdl_feasible_assignOpt : mdl.Feasible assignOpt := by
  constructor
  · intro v hv
    simp [mdl] at hv
    rcases hv with h | h <;>
      simp [h, desk, cell, Variable.inBounds, VarDomain.mem, assignOpt] <;> norm_num
  · intro ct hct
    simp [mdl] at hct
    rcases hct with h | h | h <;>
      simp [h, ct_machine_1, ct_machine_2, ct_factory, Relation.holds,
        LinExpr.eval, assignOpt] <;> norm_num

theorem mdl_objValue_assignOpt : mdl.objValue assignOpt = 4000 / 3 := by
  simp [mdl, Model.objValue, LinExpr.eval, assignOpt]
  norm_num

/-- C1 counterexample: the point `desk = 0, cell = 8` that the claim calls
optimal is not even feasible for the model built by the script — it violates
`machine_2` (`0 + 2*8 = 16 > 8`) — and `1600` is not the optimal objective
value (every feasible assignment has objective value at most `4000/3`). -/
theorem C1_counterexample :
    ¬ mdl.Feasible assign08 ∧ ¬ mdl.IsOptimalValue 1600 := by
  constructor
  · intro h
    have h2 := h.2 ct_machine_2 (by simp [mdl])
    simp [ct_machine_2, Relation.holds, LinExpr.eval, assign08] at h2
  · rintro ⟨a, hfeas, hval, -⟩
    have := mdl_objValue_le hfeas
    rw [hval] at this
    norm_num at this

/-- C1 amended: the first solve's model (maximize `300*desk + 200*cell`
subject to `2*desk+cell<=8`, `desk+2*cell<=8`, `3*desk+3*cell<=24`,
`desk,cell>=0`) attains its optimal objective value `4000/3` at
`desk = 8/3, cell = 8/3`; there `machine_1` and `machine_2` are binding with
slack 0 and `factory` is non-binding with slack 8. -/
theorem C1_amended :
    mdl.Feasible assignOpt ∧
    mdl.objValue assignOpt = 4000 / 3 ∧
    mdl.IsOptimalValue (4000 / 3) ∧
    ct_machine_1.bindingAt assignOpt ∧ ct_machine_1.slackAt assignOpt = 0 ∧
    ct_machine_2.bindingAt assignOpt ∧ ct_machine_2.slackAt assignOpt = 0 ∧
    ¬ ct_factory.bindingAt assignOpt ∧ ct_factory.slackAt assignOpt = 8 := by
  refine ⟨mdl_feasible_assignOpt, mdl_objValue_assignOpt,
    ⟨assignOpt, mdl_feasible_assignOpt, mdl_objValue_assignOpt,
      fun b hb => ?_⟩, ?_, ?_, ?_, ?_, ?_, ?_⟩
  · simpa [mdl, Direction.improvesTo] using mdl_objValue_le hb
  all_goals
    norm_num [ct_machine_1, ct_machine_2, ct_factory, Constraint.bindingAt,
      Constraint.slackAt, LinExpr.eval, assignOpt]

theorem relax_vars_continuous (m : Model) :
    ∀ v ∈ (LinearRelaxer.make_relaxed_model m).vars, v.domain = VarDomain.continuous := by
  intro v hv
  simp [LinearRelaxer.make_relaxed_model] at hv
  obtain ⟨w, -, hw⟩ := hv
  simp [← hw]

theorem relax_of_continuous (m : Model)
    (h : ∀ v ∈ m.vars, v.domain = VarDomain.continuous) :
    LinearRelaxer.make_relaxed_model m = m := by
  have hstep : ∀ v ∈ m.vars,
      ({ v with domain := VarDomain.continuous } : Variable) = id v := by
    intro v hv
    have hd := h v hv
    cases v
    simp_all
  have : m.vars.map (fun v => { v with domain := VarDomain.continuous }) = m.vars :=
    (List.map_congr_left hstep).trans (List.map_id m.vars)
  simp [LinearRelaxer.make_relaxed_model, this]

theorem mdl_vars_continuous : ∀ v ∈ mdl.vars, v.domain = VarDomain.continuous := by
  intro v hv
  simp [mdl] at hv
  rcases hv with h | h <;> simp [h, desk, cell]

/-- C4: relaxation is idempotent — relaxing twice gives exactly the model
obtained by relaxing once, so the double relaxation has the same feasible
region and the same optimal objective values as the single relaxation; and
relaxing a model all of whose variables are already continuous returns a
structurally identical copy of it. -/
theorem C4_relax_idempotent :
    (∀ m : Model,
      LinearRelaxer.make_relaxed_model (LinearRelaxer.make_relaxed_model m) =
        LinearRelaxer.make_relaxed_model m) ∧
    (∀ (m : Model) (a : String → ℚ),
      (LinearRelaxer.make_relaxed_model (LinearRelaxer.make_relaxed_model m)).Feasible a ↔
        (LinearRelaxer.make_relaxed_model m).Feasible a) ∧
    (∀ (m : Model) (z : ℚ),
      (LinearRelaxer.make_relaxed_model (LinearRelaxer.make_relaxed_model m)).IsOptimalValue z ↔
        (LinearRelaxer.make_relaxed_model m).IsOptimalValue z) ∧
    (∀ m : Model, (∀ v ∈ m.vars, v.domain = VarDomain.continuous) →
      LinearRelaxer.make_relaxed_model m = m) := by
  have hidem : ∀ m : Model,
      LinearRelaxer.make_relaxed_model (LinearRelaxer.make_relaxed_model m) =
        LinearRelaxer.make_relaxed_model m :=
    fun m => relax_of_continuous _ (relax_vars_continuous m)
  exact ⟨hidem, fun m a => by rw [hidem m], fun m z => by rw [hidem m],
    fun m h => relax_of_continuous m h⟩

theorem C4_witness :
    LinearRelaxer.make_relaxed_model (LinearRelaxer.make_relaxed_model mdl) =
      LinearRelaxer.make_relaxed_model mdl ∧
    LinearRelaxer.make_relaxed_model mdl = mdl :=
  ⟨C4_relax_idempotent.1 mdl, C4_relax_idempotent.2.2.2 mdl mdl_vars_continuous⟩

/-- C5: the relaxed model keeps every variable's identifier and bounds,
rewrites every variable's domain to continuous, and copies the constraint
list, the objective and the model name unchanged. The embedding is a pure
function, so the argument model is left untouched by the call: the relaxed
model is a fresh record and `m` itself is unchanged. -/
theorem C5_relax_frame :
    ∀ m : Model,
      (LinearRelaxer.make_relaxed_model m).vars.map Variable.name =
        m.vars.map Variable.name ∧
      (LinearRelaxer.make_relaxed_model m).vars.map Variable.lb =
        m.vars.map Variable.lb ∧
      (LinearRelaxer.make_relaxed_model m).vars.map Variable.ub =
        m.vars.map Variable.ub ∧
      ((LinearRelaxer.make_relaxed_model m).vars.all
        fun v => v.domain == VarDomain.continuous) = true ∧
      (LinearRelaxer.make_relaxed_model m).cts = m.cts ∧
      (LinearRelaxer.make_relaxed_model m).obj = m.obj ∧
      (LinearRelaxer.make_relaxed_model m).name = m.name := by
  intro m
  refine ⟨?_, ?_, ?_, ?_, rfl, rfl, rfl⟩
  · simp [LinearRelaxer.make_relaxed_model]
  · simp [LinearRelaxer.make_relaxed_model]
  · simp [LinearRelaxer.make_relaxed_model]
  · rw [List.all_eq_true]
    intro v hv
    have := relax_vars_continuous m v hv
    simp [this]

/-- C6: for a model all of whose variables are already continuous, the
relaxed model has exactly the same optimal objective values as the model
itself. -/
theorem C6_relax_continuous_same_optimum (m : Model)
    (h : ∀ v ∈ m.vars, v.domain = VarDomain.continuous) :
    ∀ z : ℚ, (LinearRelaxer.make_relaxed_model m).IsOptimalValue z ↔ m.IsOptimalValue z := by
  intro z
  rw [relax_of_continuous m h]

theorem C6_witness :
    (LinearRelaxer.make_relaxed_model mdl).IsOptimalValue (4000 / 3) ↔
      mdl.IsOptimalValue (4000 / 3) :=
  C6_relax_continuous_same_optimum mdl mdl_vars_continuous (4000 / 3)

/-- C2: reading any dual value, slack value, reduced cost or ranging field
from a Model in the `unsolved` state fails with `NoSolutionAvailable` — in
particular after any mutation (adding a variable, rewriting a constraint's
RHS, replacing the objective) the state is `unsolved` again, so such reads
fail rather than returning the previous Solution's values. -/
theorem C2_unsolved_reads_fail :
    (∀ (m : Model) (ct vn : String),
      (Session.mk m .unsolved).dual_value ct = .error .NoSolutionAvailable ∧
      (Session.mk m .unsolved).slack_value ct = .error .NoSolutionAvailable ∧
      (Session.mk m .unsolved).reduced_cost vn = .error .NoSolutionAvailable ∧
      (Session.mk m .unsolved).rhs_ranging = .error .NoSolutionAvailable ∧
      (Session.mk m .unsolved).objective_ranging = .error .NoSolutionAvailable) ∧
    (∀ (s : Session) (v : Variable), (s.add_variable v).state = .unsolved) ∧
    (∀ (s : Session) (n : String) (r : LinExpr),
      (s.set_constraint_rhs n r).state = .unsolved) ∧
    (∀ (s : Session) (o : Objective), (s.set_objective o).state = .unsolved) ∧
    (∀ (s : Session) (v : Variable) (ct : String),
      (s.add_variable v).dual_value ct = .error .NoSolutionAvailable ∧
      (s.add_variable v).slack_value ct = .error .NoSolutionAvailable ∧
      (s.add_variable v).reduced_cost ct = .error .NoSolutionAvailable ∧
      (s.add_variable v).rhs_ranging = .error .NoSolutionAvailable) ∧
    (∀ (s : Session) (n : String) (r : LinExpr) (ct : String),
      (s.set_constraint_rhs n r).dual_value ct = .error .NoSolutionAvailable ∧
      (s.set_constraint_rhs n r).slack_value ct = .error .NoSolutionAvailable) ∧
    (∀ (s : Session) (o : Objective) (ct : String),
      (s.set_objective o).dual_value ct = .error .NoSolutionAvailable ∧
      (s.set_objective o).reduced_cost ct = .error .NoSolutionAvailable) :=
  ⟨fun _ _ _ => ⟨rfl, rfl, rfl, rfl, rfl⟩,
   fun _ _ => rfl, fun _ _ _ => rfl, fun _ _ => rfl,
   fun _ _ _ => ⟨rfl, rfl, rfl, rfl⟩,
   fun _ _ _ _ => ⟨rfl, rfl⟩,
   fun _ _ _ => ⟨rfl, rfl⟩⟩

/-- C3: requesting ranging data on a model containing at least one
integer-domain variable fails with `UnsupportedForIntegerModel` at the
engine level for every Solution (so even when dual values for its
continuous variables are available in that Solution), and likewise through
the state machine for every solved session; a ranging query succeeds only
against a successfully solved model with no integer variables. -/
theorem C3_ranging_rejects_integer_models :
    (∀ (m : Model) (sol : Solution), m.hasIntegerVar = true →
      rangingQuery m sol = .error .UnsupportedForIntegerModel) ∧
    (∀ (s : Session) (sol : Solution), s.state = .solved sol →
      s.model.hasIntegerVar = true →
      s.rhs_ranging = .error .UnsupportedForIntegerModel ∧
      s.objective_ranging = .error .UnsupportedForIntegerModel) ∧
    (∀ (s : Session) (out : List (String × ℚ × ℚ)),
      s.rhs_ranging = .ok out →
      s.model.hasIntegerVar = false ∧ ∃ sol, s.state = .solved sol) := by
  refine ⟨fun m sol h => by simp [rangingQuery, h], ?_, ?_⟩
  · rintro ⟨m, st⟩ sol hst hint
    cases hst
    constructor <;>
      simp [Session.rhs_ranging, Session.objective_ranging, rangingQuery, hint,
        Except.map]
  · rintro ⟨m, st⟩ out hok
    cases st with
    | unsolved => exact absurd hok (by simp [Session.rhs_ranging])
    | solved sol =>
      refine ⟨?_, sol, rfl⟩
      by_contra hne
      have hint : m.hasIntegerVar = true := by
        revert hne
        cases m.hasIntegerVar <;> simp
      rw [show (Session.mk m (.solved sol)).rhs_ranging =
            (rangingQuery m sol).map Prod.fst from rfl] at hok
      rw [rangingQuery, hint] at hok
      simp [Except.map] at hok

theorem C3_witness :
    intMdl.hasIntegerVar = true ∧
    rangingQuery intMdl trivialSol = .error .UnsupportedForIntegerModel ∧
    (Session.mk intMdl (.solved trivialSol)).rhs_ranging =
      .error .UnsupportedForIntegerModel ∧
    mdl.hasIntegerVar = false ∧
    (Session.mk mdl (.solved trivialSol)).rhs_ranging =
      .ok trivialSol.rhs_ranging_data :=
  ⟨by decide,
   C3_ranging_rejects_integer_models.1 intMdl trivialSol (by decide),
   (C3_ranging_rejects_integer_models.2.1 (Session.mk intMdl (.solved trivialSol))
      trivialSol rfl (by decide)).1,
   (C3_ranging_rejects_integer_models.2.2 (Session.mk mdl (.solved trivialSol))
      trivialSol.rhs_ranging_data (by rfl)).1,
   by rfl⟩

theorem LPData.objective_le_dual_rowsum {p q : ℕ} (P : LPData p q)
    (x : Fin q → ℚ) (y : Fin p → ℚ)
    (hx : P.PrimalFeasible x) (hy : P.DualFeasible y) :
    P.objective x ≤ ∑ i, y i * P.rowValue x i := by
  have h1 : P.objective x ≤ ∑ j, (∑ i, y i * P.A i j) * x j := by
    apply Finset.sum_le_sum
    intro j _
    exact mul_le_mul_of_nonneg_right (hy.2 j) (hx.1 j)
  have h2 : (∑ j, (∑ i, y i * P.A i j) * x j) = ∑ i, y i * P.rowValue x i := by
    simp_rw [Finset.sum_mul, LPData.rowValue, Finset.mul_sum]
    rw [Finset.sum_comm]
    refine Finset.sum_congr rfl fun i _ => Finset.sum_congr rfl fun j _ => by ring
  exact h2 ▸ h1

theorem LPData.weak_duality {p q : ℕ} (P : LPData p q)
    (x : Fin q → ℚ) (y : Fin p → ℚ)
    (hx : P.PrimalFeasible x) (hy : P.DualFeasible y) :
    P.objective x ≤ P.dualObjective y := by
  refine le_trans (P.objective_le_dual_rowsum x y hx hy) ?_
  apply Finset.sum_le_sum
  intro i _
  calc y i * P.rowValue x i ≤ y i * P.b i :=
        mul_le_mul_of_nonneg_left (hx.2 i) (hy.1 i)
    _ = P.b i * y i := mul_comm _ _

theorem LPData.dual_comp_slack {p q : ℕ} (P : LPData p q)
    (x : Fin q → ℚ) (y : Fin p → ℚ)
    (hx : P.PrimalFeasible x) (hy : P.DualFeasible y)
    (heq : P.objective x = P.dualObjective y) :
    ∀ i, y i * P.slack x i = 0 := by
  have hnonneg : ∀ i ∈ Finset.univ, 0 ≤ y i * P.slack x i := by
    intro i _
    refine mul_nonneg (hy.1 i) ?_
    have := hx.2 i
    unfold LPData.slack
    linarith
  have hsum : (∑ i, y i * P.slack x i) =
      P.dualObjective y - ∑ i, y i * P.rowValue x i := by
    unfold LPData.slack LPData.dualObjective
    rw [← Finset.sum_sub_distrib]
    exact Finset.sum_congr rfl fun i _ => by ring
  have hrow := P.objective_le_dual_rowsum x y hx hy
  have hle : (∑ i, y i * P.slack x i) ≤ 0 := by
    rw [hsum, heq] at *
    linarith
  have hzero : (∑ i, y i * P.slack x i) = 0 :=
    le_antisymm hle (Finset.sum_nonneg hnonneg)
  intro i
  exact (Finset.sum_eq_zero_iff_of_nonneg hnonneg).1 hzero i (Finset.mem_univ i)

/-- C7: complementary slackness for a continuous LP in inequality standard
form solved to optimality, certified by a dual-feasible multiplier vector
matching the primal objective value (strong duality at the optimum): every
constraint is binding exactly when its slack value is 0, and every
non-binding constraint has dual value 0. Instantiated on all three
constraints `machine_1`, `machine_2`, `factory` of the example in the
witness. -/
theorem C7_complementary_slackness {p q : ℕ} (P : LPData p q)
    (x : Fin q → ℚ) (y : Fin p → ℚ)
    (hx : P.PrimalFeasible x) (hy : P.DualFeasible y)
    (heq : P.objective x = P.dualObjective y) :
    ∀ i, (P.binding x i ↔ P.slack x i = 0) ∧ (¬ P.binding x i → y i = 0) := by
  intro i
  have hz := P.dual_comp_slack x y hx hy heq i
  constructor
  · unfold LPData.binding LPData.slack
    constructor <;> intro h <;> linarith
  · intro hnb
    rcases mul_eq_zero.1 hz with h | h
    · exact h
    · exfalso
      apply hnb
      unfold LPData.slack at h
      unfold LPData.binding
      linarith

theorem exampleLP_primal_xstar : exampleLP.PrimalFeasible xstar := by
  constructor
  · intro j
    fin_cases j <;> norm_num [xstar]
  · intro i
    fin_cases i <;>
      norm_num [LPData.rowValue, exampleLP, xstar, Fin.sum_univ_two]

theorem exampleLP_dual_ystar : exampleLP.DualFeasible ystar := by
  constructor
  · intro i
    fin_cases i <;> norm_num [ystar]
  · intro j
    fin_cases j <;>
      norm_num [exampleLP, ystar, Fin.sum_univ_three]

theorem exampleLP_strong_duality :
    exampleLP.objective xstar = exampleLP.dualObjective ystar := by
  norm_num [LPData.objective, LPData.dualObjective, exampleLP, xstar, ystar,
    Fin.sum_univ_two, Fin.sum_univ_three]

theorem C7_witness :
    exampleLP.PrimalFeasible xstar ∧
    exampleLP.DualFeasible ystar ∧
    exampleLP.objective xstar = exampleLP.dualObjective ystar ∧
    (exampleLP.binding xstar 0 ↔ exampleLP.slack xstar 0 = 0) ∧
    (¬ exampleLP.binding xstar 1 → ystar 1 = 0) ∧
    (¬ exampleLP.binding xstar 2 → ystar 2 = 0) :=
  ⟨exampleLP_primal_xstar, exampleLP_dual_ystar, exampleLP_strong_duality,
   (C7_complementary_slackness exampleLP xstar ystar exampleLP_primal_xstar
      exampleLP_dual_ystar exampleLP_strong_duality 0).1,
   (C7_complementary_slackness exampleLP xstar ystar exampleLP_primal_xstar
      exampleLP_dual_ystar exampleLP_strong_duality 1).2,
   (C7_complementary_slackness exampleLP xstar ystar exampleLP_primal_xstar
      exampleLP_dual_ystar exampleLP_strong_duality 2).2⟩

theorem LPData.isOptimalValue_unique {p q : ℕ} (P : LPData p q) {v w : ℚ}
    (hv : P.IsOptimalValue v) (hw : P.IsOptimalValue w) : v = w := by
  obtain ⟨x, ⟨hxf, hxopt⟩, hxv⟩ := hv
  obtain ⟨z, ⟨hzf, hzopt⟩, hzv⟩ := hw
  have h1 := hxopt z hzf
  have h2 := hzopt x hxf
  linarith

theorem overtimeLP_dual_ystar (t : ℚ) : (overtimeLP t).DualFeasible ystar := by
  constructor
  · intro i
    fin_cases i <;> norm_num [ystar]
  · intro j
    fin_cases j <;>
      norm_num [overtimeLP, exampleLP, ystar, Fin.sum_univ_three]

theorem overtimeLP_primal_xovt {t : ℚ} (h0 : 0 ≤ t) (h4 : t ≤ 4) :
    (overtimeLP t).PrimalFeasible (xovt t) := by
  constructor
  · intro j
    fin_cases j <;> simp [xovt] <;> linarith
  · intro i
    fin_cases i <;>
      simp [LPData.rowValue, overtimeLP, exampleLP, xovt, Fin.sum_univ_two] <;>
      linarith

theorem overtimeLP_objective_xovt (t : ℚ) :
    (overtimeLP t).objective (xovt t) = 4000/3 + 400/3 * t := by
  simp [LPData.objective, overtimeLP, exampleLP, xovt, Fin.sum_univ_two]
  ring

theorem overtimeLP_dualObjective_ystar (t : ℚ) :
    (overtimeLP t).dualObjective ystar = 4000/3 + 400/3 * t := by
  simp [LPData.dualObjective, overtimeLP, exampleLP, ystar, Fin.sum_univ_three]
  ring

theorem overtimeLP_optimal_value {t : ℚ} (h0 : 0 ≤ t) (h4 : t ≤ 4) :
    (overtimeLP t).IsOptimalValue (4000/3 + 400/3 * t) := by
  refine ⟨xovt t, ⟨overtimeLP_primal_xovt h0 h4, fun z hz => ?_⟩,
    overtimeLP_objective_xovt t⟩
  have hwd := (overtimeLP t).weak_duality z ystar hz (overtimeLP_dual_ystar t)
  rw [overtimeLP_dualObjective_ystar t] at hwd
  rw [overtimeLP_objective_xovt t]
  exact hwd

/-- C8: in the overtime scenario of lines 53-56 (the binding constraint
`machine_1`'s RHS augmented by the bounded auxiliary variable `overtime`,
`0 <= overtime <= 4`), for every achieved overtime value `t` in `[0, 4]`
the re-solved LP's optimal objective value is exactly `4000/3 + (400/3)*t`
and nothing else; this value is monotone in the achieved overtime, and the
total change from `t = 0` is bounded above by the shadow price of
`machine_1` (the dual value `400/3` read from the first solve's Solution)
times the auxiliary variable's bound 4. -/
theorem C8_overtime_objective (t s : ℚ)
    (ht0 : 0 ≤ t) (ht4 : t ≤ 4) (hs0 : 0 ≤ s) (hs4 : s ≤ 4) (hts : t ≤ s) :
    (overtimeLP t).IsOptimalValue (4000/3 + 400/3 * t) ∧
    (∀ v, (overtimeLP t).IsOptimalValue v → v = 4000/3 + 400/3 * t) ∧
    4000/3 + 400/3 * t ≤ 4000/3 + 400/3 * s ∧
    (4000/3 + 400/3 * t) - (4000/3 + 400/3 * 0) ≤ machine1_shadow_price * 4 := by
  have hshadow : machine1_shadow_price = 400/3 := by rfl
  refine ⟨overtimeLP_optimal_value ht0 ht4,
    fun v hv => (overtimeLP t).isOptimalValue_unique hv (overtimeLP_optimal_value ht0 ht4),
    by linarith, ?_⟩
  rw [hshadow]
  linarith

theorem C8_witness :
    (overtimeLP 4).IsOptimalValue (4000/3 + 400/3 * 4) ∧
    (4000/3 + 400/3 * 4) - (4000/3 + 400/3 * 0) ≤ machine1_shadow_price * 4 :=
  ⟨(C8_overtime_objective 4 4 (by norm_num) (by norm_num) (by norm_num)
      (by norm_num) (by norm_num)).1,
   (C8_overtime_objective 4 4 (by norm_num) (by norm_num) (by norm_num)
      (by norm_num) (by norm_num)).2.2.2⟩

theorem rhs_solution_value_eight : ct_machine_1.rhs.solution_value sol0 = 8 := by
  simp [LinExpr.solution_value, LinExpr.eval, ct_machine_1]

theorem mdl_obj600_vars : mdl_obj600.vars = [desk, cell, overtime] := by
  simp [mdl_obj600, session55, session54, session0, Session.set_objective,
    Session.set_constraint_rhs, Session.add_variable, mdl]

theorem mdl_obj600_cts :
    mdl_obj600.cts =
      [{ ct_machine_1 with rhs := ⟨8, [("overtime", 1)]⟩ }, ct_machine_2, ct_factory] := by
  simp [mdl_obj600, session55, session54, session0, Session.set_objective,
    Session.set_constraint_rhs, Session.add_variable, mdl, ct_machine_1,
    ct_machine_2, ct_factory, rhs_solution_value_eight, LinExpr.solution_value,
    LinExpr.eval]

theorem mdl_obj700_vars : mdl_obj700.vars = [desk, cell, overtime] := by
  simp [mdl_obj700, session55, session54, session0, Session.set_objective,
    Session.set_constraint_rhs, Session.add_variable, mdl]

theorem mdl_obj700_cts :
    mdl_obj700.cts =
      [{ ct_machine_1 with rhs := ⟨8, [("overtime", 1)]⟩ }, ct_machine_2, ct_factory] := by
  simp [mdl_obj700, session55, session54, session0, Session.set_objective,
    Session.set_constraint_rhs, Session.add_variable, mdl, ct_machine_1,
    ct_machine_2, ct_factory, rhs_solution_value_eight, LinExpr.solution_value,
    LinExpr.eval]

theorem capacity_of_feasible {m : Model}
    (hm : m.vars = [desk, cell, overtime])
    (hc : m.cts =
      [{ ct_machine_1 with rhs := ⟨8, [("overtime", 1)]⟩ }, ct_machine_2, ct_factory])
    {a : String → ℚ} (h : m.Feasible a) :
    2 * a "desk" + a "cell" ≤ 12 := by
  obtain ⟨hv, hcs⟩ := h
  rw [hm] at hv
  rw [hc] at hcs
  have ht := hv overtime (by simp)
  have h1 := hcs { ct_machine_1 with rhs := ⟨8, [("overtime", 1)]⟩ } (by simp)
  simp [overtime, Variable.inBounds, ct_machine_1, Relation.holds,
    LinExpr.eval] at ht h1
  linarith [ht.2]

theorem mdl_obj600_feasible_enlarged : mdl_obj600.Feasible enlargedPoint := by
  constructor
  · intro v hv
    rw [mdl_obj600_vars] at hv
    simp at hv
    rcases hv with h | h | h <;>
      simp [h, desk, cell, overtime, Variable.inBounds, VarDomain.mem,
        enlargedPoint] <;> norm_num
  · intro ct hct
    rw [mdl_obj600_cts] at hct
    simp at hct
    rcases hct with h | h | h <;>
      simp [h, ct_machine_1, ct_machine_2, ct_factory, Relation.holds,
        LinExpr.eval, enlargedPoint] <;> norm_num

/-- C9: after line 54 rewrites `machine_1`'s RHS to `8 + overtime`, the
`overtime` variable stays in that constraint through the later solves: at
the models of lines 64 and 66 the constraint named `machine_1` still has
right-hand side `8 + overtime`, the replaced objectives give `overtime`
coefficient 0, the constraint set is exactly the one of the overtime model,
and the feasible region is the enlarged one — the point
`desk = 5, cell = 0, overtime = 2` is feasible for them although
`desk = 5, cell = 0` violates the original `machine_1`; with
`0 <= overtime <= 4` the effective machine-1 capacity is at most
`8 + 4 = 12`. -/
theorem C9_overtime_region :
    mdl_obj600.get_constraint_by_name "machine_1" =
      some { ct_machine_1 with rhs := ⟨8, [("overtime", 1)]⟩ } ∧
    mdl_obj700.get_constraint_by_name "machine_1" =
      some { ct_machine_1 with rhs := ⟨8, [("overtime", 1)]⟩ } ∧
    mdl_obj600.obj.expr.coeff "overtime" = 0 ∧
    mdl_obj700.obj.expr.coeff "overtime" = 0 ∧
    mdl_obj600.cts = mdl_overtime.cts ∧
    mdl_obj700.cts = mdl_overtime.cts ∧
    mdl_obj600.Feasible enlargedPoint ∧
    ¬ mdl.Feasible enlargedPoint ∧
    (∀ a : String → ℚ, mdl_obj600.Feasible a → 2 * a "desk" + a "cell" ≤ 12) ∧
    (∀ a : String → ℚ, mdl_obj700.Feasible a → 2 * a "desk" + a "cell" ≤ 12) := by
  have hlook :
      mdl_obj600.get_constraint_by_name "machine_1" =
        some { ct_machine_1 with rhs := ⟨8, [("overtime", 1)]⟩ } := by
    rw [Model.get_constraint_by_name, mdl_obj600_cts]
    simp [ct_machine_1]
  have hlook7 :
      mdl_obj700.get_constraint_by_name "machine_1" =
        some { ct_machine_1 with rhs := ⟨8, [("overtime", 1)]⟩ } := by
    rw [Model.get_constraint_by_name, mdl_obj700_cts]
    simp [ct_machine_1]
  have hc600 : mdl_obj600.cts = mdl_overtime.cts := by
    rw [mdl_obj600_cts]
    simp [mdl_overtime, session55, session54, session0, Session.set_objective,
      Session.set_constraint_rhs, Session.add_variable, mdl, ct_machine_1,
      ct_machine_2, ct_factory, LinExpr.solution_value, LinExpr.eval]
  have hc700 : mdl_obj700.cts = mdl_overtime.cts := by
    rw [mdl_obj700_cts]
    simp [mdl_overtime, session55, session54, session0, Session.set_objective,
      Session.set_constraint_rhs, Session.add_variable, mdl, ct_machine_1,
      ct_machine_2, ct_factory, LinExpr.solution_value, LinExpr.eval]
  refine ⟨hlook, hlook7,
    by simp [mdl_obj600, session55, session54, session0, Session.set_objective,
      Session.set_constraint_rhs, Session.add_variable, mdl, LinExpr.coeff],
    by simp [mdl_obj700, session55, session54, session0, Session.set_objective,
      Session.set_constraint_rhs, Session.add_variable, mdl, LinExpr.coeff],
    hc600, hc700,
    mdl_obj600_feasible_enlarged, ?_,
    fun a h => capacity_of_feasible mdl_obj600_vars mdl_obj600_cts h,
    fun a h => capacity_of_feasible mdl_obj700_vars mdl_obj700_cts h⟩
  intro h
  have h1 := h.2 ct_machine_1 (by simp [mdl])
  simp [ct_machine_1, Relation.holds, LinExpr.eval, enlargedPoint] at h1
  norm_num at h1

theorem C9_witness :
    mdl_obj600.Feasible enlargedPoint ∧
    2 * enlargedPoint "desk" + enlargedPoint "cell" ≤ 12 := by
  obtain ⟨-, -, -, -, -, -, hfeas, -, hcap, -⟩ := C9_overtime_region
  exact ⟨hfeas, hcap enlargedPoint hfeas⟩

/-- C10: relaxation preserves constraint identifiers — the relaxed model's
constraint list (hence its list of constraint names) is unchanged, so
looking a constraint up by its original name gives the same result on the
relaxed model as on the original; in particular line 84's lookup of
`machine_1` on `rmdl` succeeds and returns the (overtime-augmented)
`machine_1` constraint rather than nothing. -/
theorem C10_relax_preserves_names :
    (∀ m : Model,
      (LinearRelaxer.make_relaxed_model m).cts.map Constraint.name =
        m.cts.map Constraint.name) ∧
    (∀ (m : Model) (n : String),
      (LinearRelaxer.make_relaxed_model m).get_constraint_by_name n =
        m.get_constraint_by_name n) ∧
    (rmdl.get_constraint_by_name "machine_1").isSome = true ∧
    rmdl.get_constraint_by_name "machine_1" =
      some { ct_machine_1 with rhs := ⟨8, [("overtime", 1)]⟩ } := by
  have hlook :
      rmdl.get_constraint_by_name "machine_1" =
        some { ct_machine_1 with rhs := ⟨8, [("overtime", 1)]⟩ } := by
    rw [show rmdl.get_constraint_by_name "machine_1" =
          mdl_obj700.get_constraint_by_name "machine_1" from rfl,
      Model.get_constraint_by_name, mdl_obj700_cts]
    simp [ct_machine_1]
  exact ⟨fun m => rfl, fun m n => rfl, by rw [hlook]; rfl, hlook⟩

end SensitivityAnalysis